import Mathlib

/- A shallow embedding of My_Alarm.c, a concurrent alarm program.
   Pure data and control structure are modelled as Lean functions;
   the effect of each loop iteration of each thread is modelled by an
   explicit event trace or result value. -/

/-- The alarm record (struct alarm_tag, lines 19-24 of My_Alarm.c):
requested seconds, absolute expiration time (time_t modelled as Int),
and the contents of the message buffer. -/
structure alarm_t where
  seconds : Int
  time : Int
  message : List Char
deriving DecidableEq

/-- Maximum field width of the message conversion in the sscanf format
string on line 166 of My_Alarm.c. -/
def MSG_FIELD_WIDTH : Nat := 64

/-- Number of bytes of the message array in struct alarm_tag
(char message[64], line 23). -/
def MESSAGE_CAPACITY : Nat := 64

/-- Sorted insertion of a new alarm into the alarm list, translated from
main, lines 186-206: walk from the head to the first node whose time is
at least the time of the new alarm and link the new alarm immediately
before it; if no such node exists, append at the tail. -/
def alarm_insert (alarm : alarm_t) : List alarm_t → List alarm_t
  | [] => [alarm]
  | next :: rest =>
    if alarm.time ≤ next.time then alarm :: next :: rest
    else next :: alarm_insert alarm rest

/-- The alarm list obtained by performing the given insertions in order,
starting from the empty list (alarm_list is initialized to NULL, line 30). -/
def insertAll (requests : List alarm_t) : List alarm_t :=
  requests.foldl (fun l a => alarm_insert a l) []

/-- The list is non-decreasing in the time field. -/
def sortedByTime (l : List alarm_t) : Prop :=
  List.Pairwise (fun a b => a.time ≤ b.time) l

-- Every element of the result of alarm_insert is the new alarm or an
-- element of the original list.
lemma mem_of_mem_alarm_insert {x a : alarm_t} :
    ∀ {l : List alarm_t}, x ∈ alarm_insert a l → x = a ∨ x ∈ l := by
  intro l
  induction l with
  | nil =>
    intro h
    simp [alarm_insert] at h
    exact Or.inl h
  | cons b rest ih =>
    intro h
    by_cases hle : a.time ≤ b.time
    · simp only [alarm_insert, if_pos hle] at h
      rcases List.mem_cons.mp h with h1 | h1
      · exact Or.inl h1
      · exact Or.inr h1
    · simp only [alarm_insert, if_neg hle] at h
      rcases List.mem_cons.mp h with h1 | h1
      · exact Or.inr (List.mem_cons.mpr (Or.inl h1))
      · rcases ih h1 with h2 | h2
        · exact Or.inl h2
        · exact Or.inr (List.mem_cons.mpr (Or.inr h2))

-- alarm_insert preserves sortedness.
lemma alarm_insert_sorted {a : alarm_t} :
    ∀ {l : List alarm_t}, sortedByTime l → sortedByTime (alarm_insert a l) := by
  intro l
  induction l with
  | nil =>
    intro _
    simp [alarm_insert, sortedByTime]
  | cons b rest ih =>
    intro h
    rw [sortedByTime, List.pairwise_cons] at h
    obtain ⟨hb, hrest⟩ := h
    by_cases hle : a.time ≤ b.time
    · rw [sortedByTime]
      simp only [alarm_insert, if_pos hle, List.pairwise_cons]
      refine ⟨?_, hb, hrest⟩
      intro x hx
      rcases List.mem_cons.mp hx with rfl | hx2
      · exact hle
      · exact le_trans hle (hb x hx2)
    · have hba : b.time ≤ a.time := le_of_not_le hle
      rw [sortedByTime]
      simp only [alarm_insert, if_neg hle, List.pairwise_cons]
      constructor
      · intro x hx
        rcases mem_of_mem_alarm_insert hx with rfl | hx2
        · exact hba
        · exact hb x hx2
      · exact ih hrest

-- Folding alarm_insert over any request list preserves sortedness.
lemma insertAll_loop_sorted :
    ∀ (requests acc : List alarm_t), sortedByTime acc →
      sortedByTime (requests.foldl (fun l a => alarm_insert a l) acc) := by
  intro requests
  induction requests with
  | nil =>
    intro acc h
    simpa using h
  | cons r rs ih =>
    intro acc h
    simp only [List.foldl_cons]
    exact ih _ (alarm_insert_sorted h)

-- alarm_insert places the new alarm exactly after the maximal run of
-- strictly earlier records and before everything with time at least
-- the time of the new alarm.
lemma alarm_insert_eq_scan (a : alarm_t) :
    ∀ l : List alarm_t,
      alarm_insert a l =
        l.takeWhile (fun x => decide (x.time < a.time)) ++
          a :: l.dropWhile (fun x => decide (x.time < a.time)) := by
  intro l
  induction l with
  | nil => rfl
  | cons b rest ih =>
    by_cases hle : a.time ≤ b.time
    · have hb : decide (b.time < a.time) = false := by
        simp [not_lt.mpr hle]
      simp [alarm_insert, if_pos hle, List.takeWhile_cons, List.dropWhile_cons, hb]
    · have hb : decide (b.time < a.time) = true := by
        simp [lt_of_not_le hle]
      simp [alarm_insert, if_neg hle, List.takeWhile_cons, List.dropWhile_cons, hb, ih]

/-- C1: after any sequence of insertions with arbitrary expiration times,
the alarm list is sorted non-decreasing by time; and each insertion scans
from the head past exactly the records with strictly earlier time, linking
the new record immediately before the first record whose time is at least
the time of the new record (appending at the tail when no such record
exists, in which case the dropWhile part is empty). -/
theorem C1_registry_sorted_invariant :
    (∀ requests : List alarm_t, sortedByTime (insertAll requests)) ∧
    (∀ (a : alarm_t) (l : List alarm_t),
      alarm_insert a l =
        l.takeWhile (fun x => decide (x.time < a.time)) ++
          a :: l.dropWhile (fun x => decide (x.time < a.time))) := by
  constructor
  · intro requests
    have : sortedByTime ([] : List alarm_t) := by simp [sortedByTime]
    exact insertAll_loop_sorted requests [] this
  · intro a l
    exact alarm_insert_eq_scan a l

-- Concrete alarm records used to instantiate theorems.
def alarmA : alarm_t := { seconds := 5, time := 5, message := ['a'] }

def alarmB : alarm_t := { seconds := 5, time := 5, message := ['b'] }

def alarmC : alarm_t := { seconds := 10, time := 10, message := ['c'] }

def alarmD : alarm_t := { seconds := 7, time := 7, message := ['d'] }

/-- C2 counterexample: inserting alarmA and then alarmB, two distinct
records with equal expiration time, yields the list [alarmB, alarmA]:
the first-inserted record alarmA occupies the LATER position, because the
insertion scan (line 189, next->time >= alarm->time) links the new record
before the first record of equal time. -/
theorem C2_counterexample_first_inserted_is_later :
    alarmA.time = alarmB.time ∧
    alarmA ≠ alarmB ∧
    insertAll [alarmA, alarmB] = [alarmB, alarmA] := by
  refine ⟨by decide, by decide, ?_⟩
  decide

/-- C2 amended: records with equal expiration time sit in REVERSE insertion
order: whenever a record b is inserted into a list already containing a
record a of equal time, b is placed strictly before a (here stated as the
two-element subsequence [b, a] of the resulting list). -/
theorem C2_amended_equal_times_reverse_order (a b : alarm_t)
    (l : List alarm_t) (heq : a.time = b.time) (hmem : a ∈ l) :
    List.Sublist [b, a] (alarm_insert b l) := by
  induction l with
  | nil => cases hmem
  | cons x xs ih =>
    by_cases hle : b.time ≤ x.time
    · simp only [alarm_insert, if_pos hle]
      exact List.Sublist.cons₂ b (List.singleton_sublist.mpr hmem)
    · simp only [alarm_insert, if_neg hle]
      rcases List.mem_cons.mp hmem with rfl | hmem2
      · exact absurd (le_of_eq heq.symm) hle
      · exact List.Sublist.cons x (ih hmem2)

/-- C2 amended, witness: inserting alarmB into the list already holding
alarmA of equal expiration time places alarmB before alarmA. -/
theorem C2_amended_witness :
    List.Sublist [alarmB, alarmA] (alarm_insert alarmB [alarmA]) :=
  C2_amended_equal_times_reverse_order alarmA alarmB [alarmA]
    (by decide) (by decide)

/-- Observable events of one loop iteration of a thread of My_Alarm.c:
mutex operations, reads and writes of the shared variables alarm_list
(line 30) and alarm_done (line 35), printed reports, the dead store to
sleep_time, calls to sleep, worker creation, free, and pthread_exit. -/
inductive Ev where
  | lock
  | unlock
  | readList
  | writeList
  | readDone
  | writeDone
  | setSleepTime (n : Int)
  | sleep (n : Nat)
  | printRetrieved (now t : Int) (msg : List Char)
  | printReceived (now t : Int) (msg : List Char)
  | printExpired (now t : Int) (msg : List Char)
  | printTick (t : Int) (msg : List Char)
  | printBadCommand
  | createWorker (a : alarm_t)
  | freeRecord
  | threadExit
deriving DecidableEq

/-- Event trace of one iteration of the alarm_thread loop (lines 82-124),
given the list read at line 91, the alarm_done flag, and the current time:
lock the mutex, read the list; if empty and input still open, assign
sleep_time = 1 (lines 96-97, a dead store: the function contains no sleep
call) and unlock; if empty and input closed, call pthread_exit (line 103)
without unlocking; otherwise print the retrieved report, unlink the head,
create the worker thread, and unlock. -/
def alarm_thread_iter (alarm_list : List alarm_t) (alarm_done : Bool)
    (now : Int) : List Ev :=
  Ev.lock :: Ev.readList ::
    match alarm_list, alarm_done with
    | [], false => [Ev.readDone, Ev.setSleepTime 1, Ev.unlock]
    | [], true => [Ev.readDone, Ev.threadExit]
    | a :: _, _ =>
      [Ev.printRetrieved now a.time a.message, Ev.writeList,
        Ev.createWorker a, Ev.unlock]

/-- True exactly on sleep events. -/
def isSleep : Ev → Bool
  | Ev.sleep _ => true
  | _ => false

/-- True exactly on unlock events. -/
def isUnlock : Ev → Bool
  | Ev.unlock => true
  | _ => false

/-- Outcome of one iteration of the alarm_thread loop, abstracted from the
three branches at lines 96-116: idle retry, thread exit, or worker start
with the rest of the list left behind. -/
inductive DispatchStep where
  | sleepRetry
  | stopped
  | started (a : alarm_t) (rest : List alarm_t)
deriving DecidableEq

/-- The branch taken by one alarm_thread iteration (lines 96-116). -/
def alarm_thread_step (alarm_list : List alarm_t) (alarm_done : Bool) :
    DispatchStep :=
  match alarm_list, alarm_done with
  | [], false => DispatchStep.sleepRetry
  | [], true => DispatchStep.stopped
  | a :: rest, _ => DispatchStep.started a rest

/-- Consecutive alarm_thread iterations once alarm_done is set and no
further insertions occur: each iteration takes the branch chosen by
alarm_thread_step on the current list; a started branch leaves the tail
of the list to the next iteration. -/
def alarm_thread_run_done : List alarm_t → List DispatchStep
  | [] => [alarm_thread_step [] true]
  | a :: rest => alarm_thread_step (a :: rest) true :: alarm_thread_run_done rest

/-- The dequeue performed by alarm_thread under the lock (lines 91-112):
read alarm_list; when NULL report empty, otherwise remove the head record
and return it, with no condition on its expiration time. -/
def popReady : List alarm_t → Option (alarm_t × List alarm_t)
  | [] => none
  | a :: rest => some (a, rest)

/-- Event trace of individual_alarm_thread (lines 41-65) run against the
given sequence of observed clock values, one per loop iteration: each
iteration reads the time; if the alarm time has arrived, print the expired
report, free the record and exit the thread; otherwise print the tick
report and sleep one second before the next iteration. An empty list of
observations means the loop is still running. -/
def individual_alarm_run (alarm : alarm_t) : List Int → List Ev
  | [] => []
  | now :: later =>
    if alarm.time ≤ now then
      [Ev.printExpired now alarm.time alarm.message, Ev.freeRecord,
        Ev.threadExit]
    else
      Ev.printTick alarm.time alarm.message :: Ev.sleep 1 ::
        individual_alarm_run alarm later

/-- C3: code bug. The idle iteration of alarm_thread (registry empty,
termination flag clear) only performs the dead store sleep_time = 1 and
retries: its full event trace is lock, read list, read flag, set
sleep_time, unlock, and it contains no sleep event at all, so the
dispatcher busy-spins instead of suspending for about one second. -/
theorem C3_idle_iteration_never_sleeps :
    (∀ now : Int, alarm_thread_iter [] false now =
      [Ev.lock, Ev.readList, Ev.readDone, Ev.setSleepTime 1, Ev.unlock]) ∧
    (∀ now : Int, (alarm_thread_iter [] false now).filter isSleep = []) :=
  ⟨fun _ => rfl, fun _ => rfl⟩

/-- C5: each worker iteration reads the clock first; when the alarm time
has arrived the trace of the whole remaining run is exactly the expired
report, the free, and the thread exit (no tick, no sleep); otherwise the
iteration emits a tick report and a one-second sleep before the loop
continues. In particular an already-due alarm expires on the first
iteration before any suspension. -/
theorem C5_worker_checks_before_sleeping (alarm : alarm_t) (now : Int)
    (later : List Int) :
    (alarm.time ≤ now →
      individual_alarm_run alarm (now :: later) =
        [Ev.printExpired now alarm.time alarm.message, Ev.freeRecord,
          Ev.threadExit]) ∧
    (now < alarm.time →
      individual_alarm_run alarm (now :: later) =
        Ev.printTick alarm.time alarm.message :: Ev.sleep 1 ::
          individual_alarm_run alarm later) := by
  constructor
  · intro h
    simp [individual_alarm_run, if_pos h]
  · intro h
    simp [individual_alarm_run, if_neg (not_le.mpr h)]

/-- C5 witness: a worker holding alarmA (due at time 5) observed at time 5
expires immediately with no tick and no sleep. -/
theorem C5_worker_witness :
    individual_alarm_run alarmA [5] =
      [Ev.printExpired 5 alarmA.time alarmA.message, Ev.freeRecord,
        Ev.threadExit] :=
  (C5_worker_checks_before_sleeping alarmA 5 []).1 (by decide)

-- The simulated drained run always ends in the stopped branch.
lemma alarm_thread_run_done_concat :
    ∀ l : List alarm_t,
      ∃ pre, alarm_thread_run_done l = pre ++ [DispatchStep.stopped] := by
  intro l
  induction l with
  | nil => exact ⟨[], rfl⟩
  | cons a rest ih =>
    obtain ⟨pre, hp⟩ := ih
    exact ⟨alarm_thread_step (a :: rest) true :: pre, by
      simp [alarm_thread_run_done, hp]⟩

-- Length of the simulated drained run.
lemma alarm_thread_run_done_length :
    ∀ l : List alarm_t, (alarm_thread_run_done l).length = l.length + 1 := by
  intro l
  induction l with
  | nil => rfl
  | cons a rest ih => simp [alarm_thread_run_done, ih]

/-- C6: once the termination flag is set, an empty registry makes the very
next alarm_thread iteration take the exit branch; draining a registry of n
pending alarms reaches the stopped outcome in exactly n + 1 iterations
(the last element of the simulated run is stopped); while the flag is
clear an empty registry gives the idle-retry branch; and a run with zero
admitted alarms is the single stopped outcome, so no worker is ever
started. -/
theorem C6_dispatcher_terminates (l : List alarm_t) :
    alarm_thread_step [] true = DispatchStep.stopped ∧
    alarm_thread_step [] false = DispatchStep.sleepRetry ∧
    (alarm_thread_run_done l).length = l.length + 1 ∧
    (alarm_thread_run_done l).getLast? = some DispatchStep.stopped ∧
    alarm_thread_run_done [] = [DispatchStep.stopped] := by
  refine ⟨rfl, rfl, alarm_thread_run_done_length l, ?_, rfl⟩
  obtain ⟨pre, hp⟩ := alarm_thread_run_done_concat l
  rw [hp, List.getLast?_append_cons]
  rfl

/-- C7: the dequeue under the lock returns the empty report exactly on the
empty list, and otherwise removes and returns the head record even when
its expiration time has not arrived (now strictly before the head time):
dispatch is immediate on availability, not gated on due time. -/
theorem C7_popReady_unconditional (a : alarm_t) (rest : List alarm_t)
    (now : Int) (hfuture : now < a.time) :
    popReady [] = (none : Option (alarm_t × List alarm_t)) ∧
    popReady (a :: rest) = some (a, rest) :=
  ⟨rfl, rfl⟩

/-- C7 witness: alarmC is due only at time 10, yet at time 0 it is popped
from the head at once. -/
theorem C7_popReady_witness :
    popReady [] = (none : Option (alarm_t × List alarm_t)) ∧
    popReady [alarmC] = some (alarmC, []) :=
  C7_popReady_unconditional alarmC [] 0 (by decide)

/-- Whitespace for the scanf whitespace directives. -/
def isSpaceChar (c : Char) : Bool :=
  c = ' ' ∨ c = '\t' ∨ c = '\n' ∨ c = '\r'

/-- Drop leading whitespace. -/
def skipSpaces (s : List Char) : List Char :=
  s.dropWhile isSpaceChar

/-- Numeric value of a decimal digit character. -/
def digitVal (c : Char) : Int :=
  (c.toNat : Int) - ('0'.toNat : Int)

/-- Value of a digit string. -/
def digitsToInt (ds : List Char) : Int :=
  ds.foldl (fun acc c => acc * 10 + digitVal c) 0

/-- The percent-d conversion of sscanf: skip whitespace, accept an optional
sign followed by at least one digit, and return the value together with
the unconsumed remainder; fail when no digit is present. -/
def scanInt (s : List Char) : Option (Int × List Char) :=
  match skipSpaces s with
  | '-' :: rest =>
    let ds := rest.takeWhile Char.isDigit
    if ds.isEmpty then none
    else some (-(digitsToInt ds), rest.dropWhile Char.isDigit)
  | '+' :: rest =>
    let ds := rest.takeWhile Char.isDigit
    if ds.isEmpty then none
    else some (digitsToInt ds, rest.dropWhile Char.isDigit)
  | other =>
    let ds := other.takeWhile Char.isDigit
    if ds.isEmpty then none
    else some (digitsToInt ds, other.dropWhile Char.isDigit)

/-- The message conversion of the format on line 166 (a whitespace
directive followed by the bracket conversion of width 64 excluding the
newline): skip whitespace, then store up to MSG_FIELD_WIDTH characters up
to but excluding a newline; fail when no character matches. -/
def scanMessage (s : List Char) : Option (List Char) :=
  let t := (skipSpaces s).takeWhile (fun c => c ≠ '\n')
  let msg := t.take MSG_FIELD_WIDTH
  if msg.isEmpty then none else some msg

/-- The sscanf call on lines 166-167: parse the seconds field and the
message field; succeed (conversion count at least 2) only when both
convert, returning the seconds value and the characters stored into the
message array. -/
def sscanf_line (line : List Char) : Option (Int × List Char) :=
  match scanInt line with
  | none => none
  | some (n, rest) =>
    match scanMessage rest with
    | none => none
    | some msg => some (n, msg)

/-- The shared state of My_Alarm.c: alarm_list (line 30) and alarm_done
(line 35). -/
structure SchedState where
  alarm_list : List alarm_t
  alarm_done : Bool
deriving DecidableEq

/-- Outcome of one iteration of the main loop (lines 144-215). -/
inductive MainAction where
  | exitEndOfInput
  | skipBlank
  | badCommand
  | inserted (a : alarm_t)
deriving DecidableEq

/-- One iteration of the main loop (lines 144-215), given the line read by
fgets (none at end of input, otherwise the characters including the
trailing newline), the current time, and the shared state: at end of input
set alarm_done and exit the thread; skip lines of length at most 1; on a
parse failure report the bad command and leave the state untouched; on
success build the record with time = now + seconds and insert it sorted. -/
def main_iter (line : Option (List Char)) (now : Int) (s : SchedState) :
    MainAction × SchedState :=
  match line with
  | none => (MainAction.exitEndOfInput, { s with alarm_done := true })
  | some l =>
    if l.length ≤ 1 then (MainAction.skipBlank, s)
    else
      match sscanf_line l with
      | none => (MainAction.badCommand, s)
      | some (n, msg) =>
        let a : alarm_t := { seconds := n, time := now + n, message := msg }
        (MainAction.inserted a,
          { s with alarm_list := alarm_insert a s.alarm_list })

/-- Event trace of one iteration of the main loop: the end-of-input path
(lines 149-153) writes alarm_done and exits WITHOUT touching the mutex; a
blank line produces no event; a parse failure prints the diagnostic (line
168); a successful parse locks the mutex, prints the received report, and
performs the sorted insertion (reading and writing alarm_list) before
unlocking (lines 174-213). -/
def main_iter_events (line : Option (List Char)) (now : Int) : List Ev :=
  match line with
  | none => [Ev.writeDone, Ev.threadExit]
  | some l =>
    if l.length ≤ 1 then []
    else
      match sscanf_line l with
      | none => [Ev.printBadCommand]
      | some (n, msg) =>
        [Ev.lock, Ev.printReceived now (now + n) msg, Ev.readList,
          Ev.writeList, Ev.unlock]

/-- True exactly on events that access the shared alarm list. -/
def registryAccess : Ev → Bool
  | Ev.readList => true
  | Ev.writeList => true
  | _ => false

/-- True exactly on events that access the termination flag. -/
def doneAccess : Ev → Bool
  | Ev.readDone => true
  | Ev.writeDone => true
  | _ => false

/-- True exactly on events that access any shared variable. -/
def sharedAccess (e : Ev) : Bool :=
  registryAccess e || doneAccess e

/-- Scan a trace keeping the current lock depth; true when every event
selected by p occurs at positive depth, i.e. with the mutex held. -/
def guardedFrom (p : Ev → Bool) : Nat → List Ev → Bool
  | _, [] => true
  | d, Ev.lock :: tr => guardedFrom p (d + 1) tr
  | d, Ev.unlock :: tr => guardedFrom p (d - 1) tr
  | d, e :: tr => (!(p e) || decide (0 < d)) && guardedFrom p d tr

/-- Lock depth after a trace, starting from the given depth. -/
def depthAfter : Int → List Ev → Int
  | d, [] => d
  | d, Ev.lock :: tr => depthAfter (d + 1) tr
  | d, Ev.unlock :: tr => depthAfter (d - 1) tr
  | d, _ :: tr => depthAfter d tr

/-- An input line consisting of the digit 1, a space, and sixty-four
message characters. -/
def overlongLine : List Char := '1' :: ' ' :: List.replicate 64 'a'

/-- C4: code bug. The sscanf conversion of width 64 (line 166) stores up
to 64 message characters, not 63: on overlongLine the parse succeeds and
stores all 64 characters, which is more than 63, and together with the
terminating NUL exceeds the 64-byte message array of struct alarm_tag
(line 23). -/
theorem C4_parser_stores_64_characters :
    sscanf_line overlongLine = some (1, List.replicate 64 'a') ∧
    63 < (List.replicate 64 'a').length ∧
    MESSAGE_CAPACITY < (List.replicate 64 'a').length + 1 := by
  refine ⟨by decide, by decide, by decide⟩

/-- C8: on a non-blank line that fails to parse, the main loop iteration
reports the bad command, creates no alarm, and returns the shared state
exactly as it was: the registry is untouched and the loop proceeds; the
event trace of the iteration is the single diagnostic. -/
theorem C8_bad_command_leaves_registry_unchanged (line : List Char)
    (now : Int) (s : SchedState) (hlen : 1 < line.length)
    (hparse : sscanf_line line = none) :
    main_iter (some line) now s = (MainAction.badCommand, s) ∧
    main_iter_events (some line) now = [Ev.printBadCommand] := by
  have hnot : ¬ line.length ≤ 1 := not_le.mpr hlen
  constructor
  · simp [main_iter, hnot, hparse]
  · simp [main_iter_events, hnot, hparse]

/-- The malformed request line abc followed by the newline. -/
def badLine : List Char := ['a', 'b', 'c', '\n']

/-- C8 witness: the malformed line abc yields the diagnostic and leaves
the empty registry and the clear flag unchanged. -/
theorem C8_bad_command_witness :
    main_iter (some badLine) 0 { alarm_list := [], alarm_done := false } =
      (MainAction.badCommand,
        { alarm_list := [], alarm_done := false }) ∧
    main_iter_events (some badLine) 0 = [Ev.printBadCommand] :=
  C8_bad_command_leaves_registry_unchanged badLine 0
    { alarm_list := [], alarm_done := false } (by decide) (by decide)

/-- C9 counterexample: the end-of-input iteration of the main loop writes
the termination flag at lock depth zero (lines 149-153 run before any
mutex acquisition), so the one-time flag write does NOT occur while
holding the registry lock. -/
theorem C9_counterexample_flag_write_unlocked :
    guardedFrom sharedAccess 0 (main_iter_events none 0) = false := by
  decide

/-- C9 amended: every access to the shared alarm list, in every branch of
both threads, happens with the mutex held, and the alarm thread reads the
termination flag only with the mutex held; but the end-of-input write of
the flag by the main thread happens with no lock held. -/
theorem C9_amended_lock_discipline (l : List alarm_t) (done : Bool)
    (now : Int) (line : Option (List Char)) :
    guardedFrom sharedAccess 0 (alarm_thread_iter l done now) = true ∧
    guardedFrom registryAccess 0 (main_iter_events line now) = true ∧
    guardedFrom sharedAccess 0 (main_iter_events none now) = false := by
  refine ⟨?_, ?_, rfl⟩
  · cases l with
    | nil => cases done <;> rfl
    | cons a rest => cases done <;> rfl
  · cases line with
    | none => rfl
    | some str =>
      by_cases h1 : str.length ≤ 1
      · have htr : main_iter_events (some str) now = [] := by
          simp [main_iter_events, h1]
        rw [htr]
        rfl
      · cases hs : sscanf_line str with
        | none =>
          have htr : main_iter_events (some str) now = [Ev.printBadCommand] := by
            simp [main_iter_events, h1, hs]
          rw [htr]
          rfl
        | some p =>
          obtain ⟨n, msg⟩ := p
          have htr : main_iter_events (some str) now =
              [Ev.lock, Ev.printReceived now (now + n) msg, Ev.readList,
                Ev.writeList, Ev.unlock] := by
            simp [main_iter_events, h1, hs]
          rw [htr]
          rfl

/-- C10: the terminal branch of the alarm thread (registry empty, flag
set) calls pthread_exit while the mutex is still held: its trace ends at
the thread exit with lock depth one and contains no unlock event; every
other branch of the iteration ends with the mutex released (depth zero)
before the next iteration begins. -/
theorem C10_terminal_branch_keeps_lock (now : Int) (l : List alarm_t)
    (done : Bool) (h : l ≠ [] ∨ done = false) :
    depthAfter 0 (alarm_thread_iter [] true now) = 1 ∧
    (alarm_thread_iter [] true now).filter isUnlock = [] ∧
    Ev.threadExit ∈ alarm_thread_iter [] true now ∧
    depthAfter 0 (alarm_thread_iter l done now) = 0 := by
  refine ⟨rfl, rfl, ?_, ?_⟩
  · have htr : alarm_thread_iter [] true now =
        [Ev.lock, Ev.readList, Ev.readDone, Ev.threadExit] := rfl
    rw [htr]
    decide
  · rcases h with h | h
    · cases l with
      | nil => exact absurd rfl h
      | cons a rest => cases done <;> rfl
    · subst h
      cases l with
      | nil => rfl
      | cons a rest => rfl

/-- C10 witness: at a state with one pending alarm and the flag set, the
dispatch branch releases the lock, while the terminal branch on the empty
registry exits at depth one with no unlock. -/
theorem C10_terminal_witness :
    depthAfter 0 (alarm_thread_iter [] true 0) = 1 ∧
    (alarm_thread_iter [] true 0).filter isUnlock = [] ∧
    Ev.threadExit ∈ alarm_thread_iter [] true 0 ∧
    depthAfter 0 (alarm_thread_iter [alarmD] true 0) = 0 :=
  C10_terminal_branch_keeps_lock 0 [alarmD] true (Or.inl (by decide))
